import Mathlib

/-!
Verification development for the Meaningfull AI preview generator
(`api/generate-preview.js`).  The repository bundles several revisions of the
endpoint; the constraint compiler under study is the "MVP (Robust Option-Set
Key Mapping + Canonical Notes Parsing)" revision, together with the notes
helpers (`extractAge`, `extractColorsFree`, `buildNotesRules`) of the combined
revision.  JavaScript strings are modelled as Lean `String`s, JS regular
expressions by explicit leftmost-first backtracking matchers over `List Char`,
and the in-memory `generationCount` map by a function `String → Nat`.
-/

namespace Js

/-- ASCII whitespace characters recognised by JS `\s` / `trim` (ASCII part). -/
def isSpace (c : Char) : Bool :=
  c = ' ' || c = '\t' || c = '\n' || c = '\r' || c = '\x0b' || c = '\x0c'

/-- JS `\w` word character: `[A-Za-z0-9_]`. -/
def isWordChar (c : Char) : Bool :=
  c.isAlpha || c.isDigit || c = '_'

/-- Exact prefix test on character lists. -/
def isPrefixL : List Char → List Char → Bool
  | [], _ => true
  | _ :: _, [] => false
  | a :: as, b :: bs => a = b && isPrefixL as bs

/-- JS `hay.includes(needle)`: `needle` occurs as a contiguous substring. -/
def containsSub : List Char → List Char → Bool
  | hay, needle =>
    if isPrefixL needle hay then true
    else
      match hay with
      | [] => false
      | _ :: t => containsSub t needle

/-- JS `hay.includes(needle)` on `String`s. -/
def strIncludes (hay needle : String) : Bool :=
  containsSub hay.data needle.data

/-- JS `s.toLowerCase()` (ASCII). -/
def lowerStr (s : String) : String :=
  ⟨s.data.map Char.toLower⟩

/-- Strip leading JS whitespace. -/
def trimL (l : List Char) : List Char := l.dropWhile isSpace

/-- JS `s.trim()` over a character list. -/
def trimChars (l : List Char) : List Char := ((trimL l).reverse.dropWhile isSpace).reverse

/-- Worker for `collapseWs`: the flag records whether the previous kept
character position was inside a whitespace run. -/
def collapseGo : Bool → List Char → List Char
  | _, [] => []
  | prevSpace, c :: rest =>
    if isSpace c then
      if prevSpace then collapseGo true rest
      else ' ' :: collapseGo true rest
    else c :: collapseGo false rest

/-- JS `s.replace(/\s+/g, " ")`: every maximal whitespace run becomes one space. -/
def collapseWs (l : List Char) : List Char := collapseGo false l

/-- JS `[...new Set(list)]`: de-duplicate keeping first occurrences. -/
def dedupGo (seen : List String) : List String → List String
  | [] => []
  | x :: xs => if seen.contains x then dedupGo seen xs else x :: dedupGo (x :: seen) xs

/-- JS `text.split(sep)` for a single-character-class separator. -/
def splitGo (p : Char → Bool) (acc : List Char) : List Char → List (List Char)
  | [] => [acc.reverse]
  | c :: rest => if p c then acc.reverse :: splitGo p [] rest else splitGo p (c :: acc) rest

/-- The apostrophe character, for building string literals containing `'`. -/
def apos : Char := Char.ofNat 39

/-- Case-insensitive literal prefix test (`pat` is given lowercase). -/
def isPrefixCI : List Char → List Char → Bool
  | [], _ => true
  | _ :: _, [] => false
  | a :: as, b :: bs => b.toLower = a && isPrefixCI as bs

/-- Case-insensitive literal prefix consumption: remaining input on success. -/
def dropLitCI : List Char → List Char → Option (List Char)
  | [], t => some t
  | _ :: _, [] => none
  | a :: as, b :: bs => if b.toLower = a then dropLitCI as bs else none

end Js

namespace V1

open Js

/-- Numeric value of a decimal digit character. -/
def digitVal (c : Char) : Nat := c.toNat - '0'.toNat

/-- The `(?:yo|y\/o|years?\s*old)` age-marker alternation of
`extractAge`'s regex, tested case-insensitively at the head of `t`. -/
def ageMarker (t : List Char) : Bool :=
  isPrefixCI "yo".data t ||
  isPrefixCI "y/o".data t ||
  (match dropLitCI "year".data t with
   | some r =>
     (match r with
      | c :: r2 => (c.toLower = 's' && isPrefixCI "old".data (trimL r2)) ||
          isPrefixCI "old".data (trimL r)
      | [] => isPrefixCI "old".data (trimL r))
   | none => false)

/-- Attempt the regex `(\d{1,2})\s*(?:yo|y\/o|years?\s*old)` at the current
position: one or two digits (greedy, with backtracking), optional whitespace,
then an age marker.  Returns the captured number. -/
def tryAgeAt : List Char → Option Nat
  | [] => none
  | c1 :: rest =>
    if c1.isDigit then
      match rest with
      | c2 :: rest2 =>
        if c2.isDigit && ageMarker (trimL rest2) then some (digitVal c1 * 10 + digitVal c2)
        else if ageMarker (trimL rest) then some (digitVal c1)
        else none
      | [] => none
    else none

/-- Leftmost-match scan for `extractAge`'s regex. -/
def extractAgeGo : List Char → Option Nat
  | [] => none
  | t@(_ :: rest) =>
    match tryAgeAt t with
    | some a => some a
    | none => extractAgeGo rest

/-- Model of `extractAge(notes)`: first match of `/(\d{1,2})\s*(?:yo|y\/o|years?\s*old)/i`,
returning the captured integer, else `null`. -/
def extractAge (notes : String) : Option Nat :=
  extractAgeGo notes.data

/-- The fixed palette vocabulary of `extractColorsFree`. -/
def COLOR_WORDS : List String :=
  ["black", "white", "gray", "grey", "silver", "gold",
   "red", "blue", "navy", "pink", "purple", "violet", "lavender",
   "green", "emerald", "sage", "teal",
   "yellow", "orange",
   "brown", "beige", "cream",
   "pastel", "neon"]

/-- Does `w` begin at the head of `t` with a word boundary after it
(the regex tail `w\b`)? -/
def prefixBoundary : List Char → List Char → Bool
  | [], [] => true
  | [], c :: _ => !isWordChar c
  | _ :: _, [] => false
  | a :: as, b :: bs => a = b && prefixBoundary as bs

/-- Scan of the regex `\bw\b` over `t`; `prevW` records whether the character
before the current position is a word character. -/
def scanWordGo (w : List Char) : Bool → List Char → Bool
  | prevW, [] => !prevW && prefixBoundary w []
  | prevW, c :: rest =>
    (!prevW && prefixBoundary w (c :: rest)) || scanWordGo w (isWordChar c) rest

/-- Model of `new RegExp("\\b" + c + "\\b", "i").test(n)` for a lowercase word `c`
against lowercase text. -/
def testWord (w : String) (t : String) : Bool :=
  scanWordGo w.data false t.data

/-- Model of `extractColorsFree(notes)`: every palette word present (case-insensitive
whole-word match), collected in vocabulary order, de-duplicated. -/
def extractColorsFree (notes : String) : List String :=
  let n := lowerStr notes
  dedupGo [] (COLOR_WORDS.filter (fun c => testWord c n))

end V1

namespace V1

open Js

/-- The age-dependent hard constraint pushed by `buildNotesRules`
(four bands: `≤3`, `4–12`, `13–17`, `18+`). -/
def ageRule (age : Nat) : String :=
  if age ≤ 3 then
    "infant/toddler-appropriate items only; baby-safe, soft, gentle, non-choking-size items"
  else if age ≤ 12 then
    "kid-appropriate items only; playful, fun, absolutely no adult themes"
  else if age ≤ 17 then
    "teen-appropriate items; trendy, cool, still safe and age-appropriate"
  else
    "adult-appropriate items"

/-- The `noPhrases` exclusion table of `buildNotesRules`: keyword and rule. -/
def noPhrases : List (String × String) :=
  [("alcohol", "no alcohol"),
   ("chocolate", "no chocolate items"),
   ("nuts", "avoid nuts"),
   ("perfume", "avoid perfume/fragrance items"),
   ("fragrance", "avoid perfume/fragrance items")]

/-- The string literal containing an apostrophe used by `buildNotesRules`. -/
def dontIncludeStr (key : String) : String :=
  "don" ++ String.singleton apos ++ "t include " ++ key

/-- One `noPhrases` trigger: any of the four literal exclusion forms occurs. -/
def noHit (n : String) (key : String) : Bool :=
  strIncludes n ("no " ++ key) ||
  strIncludes n (dontIncludeStr key) ||
  strIncludes n ("dont include " ++ key) ||
  strIncludes n ("avoid " ++ key)

/-- The `interests` keyword table of `buildNotesRules`. -/
def interests : List (List String × String) :=
  [(["sports", "soccer", "basketball", "hockey"],
    "include subtle sports-themed gift items appropriate to the recipient"),
   (["music", "guitar", "piano", "concert", "vinyl"],
    "include subtle music-themed gift items appropriate to the recipient"),
   (["gaming", "video game", "playstation", "xbox", "nintendo"],
    "include subtle gaming-themed gift items appropriate to the recipient"),
   (["skincare", "self care", "spa"],
    "include subtle skincare/self-care themed items appropriate to the recipient"),
   (["coffee", "espresso", "tea"],
    "include subtle coffee/tea themed gift items appropriate to the recipient"),
   (["books", "reading", "novel"],
    "include subtle book/reading themed gift items appropriate to the recipient")]

/-- The horror keyword list of `buildNotesRules`. -/
def horrorKeywords : List String :=
  ["horror", "horror movie", "slasher", "gothic", "creepy", "haunted",
   "classic horror", "classic horror movie"]

/-- Result record of `buildNotesRules`. -/
structure NotesRules where
  hard : List String
  avoid : List String
  age : Option Nat
  raw : String
  colors : List String
  horrorMode : Bool
deriving Repr, DecidableEq

/-- Model of `buildNotesRules(notes)` of the combined revision: age band rule, explicit
exclusions, a first-matching interest rule, color theme rules, horror mode and
the surprise fallback, in source push order. -/
def buildNotesRules (notes : String) : NotesRules :=
  let raw := notes
  let n := lowerStr raw
  let age := extractAge raw
  let ageHard := match age with
    | some a => [ageRule a]
    | none => []
  let avoidNo := noPhrases.foldl (fun acc p => if noHit n p.1 then acc ++ [p.2] else acc) []
  let interestHard := match interests.find? (fun it => it.1.any (fun k => strIncludes n k)) with
    | some it => [it.2]
    | none => []
  let colors := extractColorsFree raw
  let colorHard :=
    if colors.isEmpty then []
    else
      ["color theme must visibly include these colors: " ++ String.intercalate ", " colors,
       "apply the color theme to the gift boxes and accent elements (ribbons, tissue paper, small decor)",
       "keep the overall look premium and cohesive (do not look childish unless age indicates a child)"]
  let horrorMode := horrorKeywords.any (fun k => strIncludes n k) || strIncludes n "horror"
  let horrorHard :=
    if horrorMode then
      ["classic horror movie aesthetic: moody cinematic lighting, retro film-grain feel, foggy ambience",
       "include ONE or TWO original, unbranded horror-style character elements as subtle decor — NOT recognizable IP"]
    else []
  let horrorAvoid :=
    if horrorMode then
      ["no recognizable copyrighted characters",
       "no brand names or franchise logos",
       "no gore or graphic violence"]
    else []
  let hardPre := ageHard ++ interestHard ++ colorHard ++ horrorHard
  let surpriseHard :=
    if (strIncludes n "surprise me" || strIncludes n "surprise") && hardPre.isEmpty && age.isNone then
      ["choose a balanced, universally appealing mix of items appropriate for the occasion and recipient"]
    else []
  ⟨hardPre ++ surpriseHard, avoidNo ++ horrorAvoid, age, raw, colors, horrorMode⟩

end V1

namespace Mvp

open Js

/-- Model of `normalizeStr(s)`: trim, then collapse every whitespace run to one space. -/
def normalizeStr (s : String) : String :=
  ⟨collapseWs (trimChars s.data)⟩

/-- Model of `toLower(s)`: `normalizeStr(s).toLowerCase()`. -/
def toLower (s : String) : String :=
  lowerStr (normalizeStr s)

/-- The process-wide `CONSTRAINTS` object, loaded from environment variables
(`MEANINGFULL_ALLOWED_BRANDS`, `MEANINGFULL_DISALLOWED_BRANDS`,
`MEANINGFULL_STRICT_BRAND_MODE`); modelled as a parameter. -/
structure Constraints where
  ALLOWED_BRANDS : List String
  DISALLOWED_BRANDS : List String
  STRICT_BRAND_MODE : Bool
deriving Repr, DecidableEq

/-- The default configuration: empty brand lists, strict mode on. -/
def defaultConstraints : Constraints := ⟨[], [], true⟩

/-- The fixed brand vocabulary scanned by `detectBrands`. -/
def BRANDS : List String :=
  ["nike", "adidas", "puma", "new balance", "reebok",
   "rolex", "omega", "cartier", "seiko",
   "apple", "sony", "bose", "lululemon",
   "chanel", "dior", "gucci", "prada", "ysl", "hermes"]

/-- Result record of `detectBrands`. -/
structure BrandScan where
  requested : List String
  permitted : List String
  blocked : List String
deriving Repr, DecidableEq

/-- Model of `detectBrands(notesText)`: substring scan of the brand vocabulary, then
partition against `CONSTRAINTS`: blocked iff in the deny list, or the allow
list is non-empty and the brand is not in it; permitted otherwise. -/
def detectBrands (policy : Constraints) (notesText : String) : BrandScan :=
  let found := BRANDS.filter (fun b => strIncludes notesText b)
  let requested := dedupGo [] found
  let blocked := requested.filter (fun b =>
    policy.DISALLOWED_BRANDS.contains b ||
    (!policy.ALLOWED_BRANDS.isEmpty && !policy.ALLOWED_BRANDS.contains b))
  let permitted := requested.filter (fun b => !blocked.contains b)
  ⟨requested, permitted, blocked⟩

/-- Attempt the regex `\b([01]?\d|2[0-3])[:.][0-5]\d\b` at the current
position (`prevW`: the previous character is a word character).  Returns the
matched characters `m[0]`. -/
def tryTimeAt (prevW : Bool) (t : List Char) : Option (List Char) :=
  if prevW then none
  else
    let tail2 : List Char → Option (List Char) := fun r =>
      match r with
      | sep :: m1 :: m2 :: r2 =>
        if (sep = ':' || sep = '.') && ('0' ≤ m1 && m1 ≤ '5') && m2.isDigit &&
            (match r2 with
             | [] => true
             | c :: _ => !isWordChar c) then
          some [sep, m1, m2]
        else none
      | _ => none
    match t with
    | c1 :: rest =>
      -- first alternative `[01]?\d`, with the optional `[01]` tried first
      (match (if c1 = '0' || c1 = '1' then
                match rest with
                | c2 :: rest2 =>
                  if c2.isDigit then (tail2 rest2).map (fun m => c1 :: c2 :: m) else none
                | [] => none
              else none) with
       | some m => some m
       | none =>
         match (if c1.isDigit then (tail2 rest).map (fun m => [c1] ++ m) else none) with
         | some m => some m
         | none =>
           -- second alternative `2[0-3]`
           if c1 = '2' then
             match rest with
             | c2 :: rest2 =>
               if '0' ≤ c2 && c2 ≤ '3' then (tail2 rest2).map (fun m => c1 :: c2 :: m) else none
             | [] => none
           else none)
    | [] => none

/-- Leftmost-match scan for the time regex. -/
def extractTimeGo : Bool → List Char → Option (List Char)
  | _, [] => none
  | prevW, t@(c :: rest) =>
    match tryTimeAt prevW t with
    | some m => some m
    | none => extractTimeGo (isWordChar c) rest

/-- Model of `m[0].replace(".", ":")`: replace the first `.` by `:`. -/
def replaceFirstDot : List Char → List Char
  | [] => []
  | c :: r => if c = '.' then ':' :: r else c :: replaceFirstDot r

/-- Model of `extractTimeFromNotes(notes)`: first `HH:MM`-like literal (`:` or `.`
separator), with the separator normalised to `:`. -/
def extractTimeFromNotes (notes : String) : Option String :=
  match extractTimeGo false notes.data with
  | none => none
  | some m => some ⟨replaceFirstDot m⟩

/-- Recipient palette group. -/
inductive RecipientGroup
  | female
  | male
  | neutral
deriving Repr, DecidableEq

/-- The gendered word list for the female group. -/
def femaleWords : List String :=
  ["wife", "girlfriend", "mom", "mother", "sister", "daughter", "girl",
   "woman", "women", "her", "she"]

/-- The gendered word list for the male group. -/
def maleWords : List String :=
  ["husband", "boyfriend", "dad", "father", "brother", "son", "boy",
   "man", "men", "him", "he"]

/-- Model of `inferRecipientGroup(recipient, notes)`: substring scan of
`"recipient notes"` (lowercased) against the two gendered word lists. -/
def inferRecipientGroup (recipient notes : String) : RecipientGroup :=
  let text : String := ⟨(recipient.data ++ ' ' :: notes.data).map Char.toLower⟩
  let isFemale := femaleWords.any (fun k => strIncludes text k)
  let isMale := maleWords.any (fun k => strIncludes text k)
  if isFemale && !isMale then .female
  else if isMale && !isFemale then .male
  else .neutral

/-- The JS key string of a `RecipientGroup` (`PALETTES` is keyed by these). -/
def groupName : RecipientGroup → String
  | .female => "female"
  | .male => "male"
  | .neutral => "neutral"

/-- The `PALETTES` table of `buildPrompt`. -/
def PALETTES : RecipientGroup → String
  | .female => "soft ivory, warm beige, blush-neutral accents, subtle gold or brass details"
  | .male => "charcoal, black, deep navy, warm gray, brushed metal accents"
  | .neutral => "ivory, stone, warm gray, charcoal accents, minimal restrained tones"

end Mvp

namespace Mvp

open Js

/-- The `INCLUDE_LABEL` table: canonical include tag to prompt label. -/
def INCLUDE_LABEL : List (String × String) :=
  [("watch", "premium wristwatch/timepiece (analog unless requested otherwise)"),
   ("wallet", "premium wallet or card holder"),
   ("jewelry", "premium jewelry (necklace/bracelet/ring/earrings as appropriate)"),
   ("sneakers", "premium sneakers/shoes (clean, elevated)"),
   ("hoodie", "premium hoodie/sweatshirt"),
   ("sweater", "premium sweater/knit"),
   ("jacket", "premium jacket/outerwear accent"),
   ("hat", "premium hat/cap/beanie (structured, elevated)"),
   ("headphones", "premium headphones/earbuds"),
   ("speaker", "premium speaker (minimal, modern)"),
   ("bag", "premium bag (tote/handbag/backpack as appropriate)"),
   ("sunglasses", "premium sunglasses"),
   ("belt", "premium belt"),
   ("scarf", "premium scarf"),
   ("book", "book (premium edition aesthetic)"),
   ("journal", "journal/notebook (minimal, premium)"),
   ("mug", "ceramic mug/cup (premium, minimal)"),
   ("bottle", "premium tumbler/water bottle"),
   ("decor", "modern sculptural decor object (ceramic/stone/metal)"),
   ("tech_accessory", "tech accessory (charging dock/phone accessory; minimal; no text)"),
   ("fitness", "fitness accessory (premium, minimal; no cheap plastic)"),
   ("travel", "travel accessory (passport cover/luggage tag; minimal; no text)")]

/-- The `CANONICAL_INCLUDE` synonym table, in source key order. -/
def CANONICAL_INCLUDE : List (String × List String) :=
  [("watch", ["watch", "timepiece", "analog watch"]),
   ("wallet", ["wallet", "card holder", "cardholder"]),
   ("jewelry", ["jewelry", "necklace", "bracelet", "ring", "earrings"]),
   ("sneakers", ["sneakers", "sneaker", "shoes", "shoe", "trainers"]),
   ("hoodie", ["hoodie", "sweatshirt"]),
   ("sweater", ["sweater", "knit"]),
   ("jacket", ["jacket", "coat", "outerwear"]),
   ("hat", ["hat", "cap", "beanie"]),
   ("headphones", ["headphones", "earbuds", "earphones", "airpods"]),
   ("speaker", ["speaker", "bluetooth speaker"]),
   ("bag", ["bag", "handbag", "tote", "backpack"]),
   ("sunglasses", ["sunglasses", "shades"]),
   ("belt", ["belt"]),
   ("scarf", ["scarf"]),
   ("book", ["book", "novel"]),
   ("journal", ["journal", "notebook"]),
   ("mug", ["mug", "cup"]),
   ("bottle", ["water bottle", "tumbler"]),
   ("decor", ["decor", "sculpture", "ceramic object", "vase", "tray", "bowl"]),
   ("tech_accessory", ["charger", "charging dock", "phone accessory"]),
   ("fitness", ["gym", "workout", "fitness", "yoga"]),
   ("travel", ["travel", "luggage tag", "passport cover"])]

/-- The `CANONICAL_AVOID` synonym table, in source key order. -/
def CANONICAL_AVOID : List (String × List String) :=
  [("candles", ["candle", "candles", "tealight", "tealights", "votive", "wax"]),
   ("skincare", ["skincare", "serum", "lotion", "face mask", "sheet mask", "moisturizer",
                 "hand cream", "cream"]),
   ("fragrance", ["fragrance", "perfume", "cologne"]),
   ("socks", ["socks"]),
   ("hats", ["hat", "cap", "beanie"]),
   ("plush", ["plush", "stuffed", "stuffed animal"]),
   ("pillow", ["pillow", "cushion"]),
   ("blanket", ["blanket", "throw"]),
   ("soap", ["soap", "body wash"]),
   ("bath", ["bath bomb", "bath bombs", "loofah"]),
   ("alcohol", ["alcohol", "wine", "beer", "spirits"]),
   ("food", ["food", "snack", "snacks", "candy", "chocolate"]),
   ("paper", ["card", "greeting card", "poster", "print", "prints", "sticker", "stickers"]),
   ("clutter", ["cheap", "plastic", "novelty", "gag gift"])]

/-- The capture class `[a-z\s-]` of the exclusion regexes. -/
def exclChar (c : Char) : Bool :=
  ('a' ≤ c && c ≤ 'z') || isSpace c || c = '-'

/-- The capture class `[^.\n]` of the inclusion regexes. -/
def inclChar (c : Char) : Bool :=
  !(c = '.' || c = '\n')

/-- A lead token of a trigger regex: a literal or `\s+` (`\s+` is consumed
greedily; every following literal starts with a non-space character, so no
backtracking through it can succeed). -/
inductive Tok
  | lit (s : String)
  | ws1
deriving Repr

/-- Match a lead token sequence at the head of `t`, returning the rest. -/
def matchToks : List Tok → List Char → Option (List Char)
  | [], t => some t
  | Tok.lit s :: ps, t =>
    if isPrefixL s.data t then matchToks ps (t.drop s.data.length) else none
  | Tok.ws1 :: ps, t =>
    let k := (t.takeWhile isSpace).length
    if k = 0 then none else matchToks ps (t.drop k)

/-- The final `\s+([class]{3,max})` of a trigger regex: try the greedy
whitespace width first and backtrack down to one, since capture characters may
themselves be whitespace. -/
def capTry (cls : Char → Bool) (maxLen : Nat) (t1 : List Char) :
    Nat → Option (List Char × List Char)
  | 0 => none
  | k + 1 =>
    let t2 := t1.drop (k + 1)
    let cap := (t2.takeWhile cls).take maxLen
    if 3 ≤ cap.length then some (cap, t2.drop cap.length)
    else capTry cls maxLen t1 k

/-- Attempt one trigger regex (given as alternative lead token sequences, in
regex alternation order) at the current position: `\b`, the lead, then
`\s+` and the capture.  Returns the capture and the input after the match. -/
def tryTrigAt (alts : List (List Tok)) (cls : Char → Bool) (maxLen : Nat)
    (prevW : Bool) (t : List Char) : Option (List Char × List Char) :=
  if prevW then none
  else
    alts.foldl (fun acc toks =>
      match acc with
      | some r => some r
      | none =>
        match matchToks toks t with
        | none => none
        | some t1 => capTry cls maxLen t1 (t1.takeWhile isSpace).length) none

/-- Is the last character of `cap` a word character?  (After a match the JS
global regex resumes right after the capture, so the boundary state for the
next position is determined by the capture's last character.) -/
def lastIsWord (cap : List Char) : Bool :=
  match cap.reverse with
  | c :: _ => isWordChar c
  | [] => false

/-- Global scan of one trigger regex: collect all captures left to right,
resuming after each match (fuel decreases at every step). -/
def scanTrig (alts : List (List Tok)) (cls : Char → Bool) (maxLen : Nat) :
    Nat → Bool → List Char → List (List Char)
  | 0, _, _ => []
  | _ + 1, _, [] => []
  | fuel + 1, prevW, t@(c :: rest) =>
    match tryTrigAt alts cls maxLen prevW t with
    | some (cap, restAfter) => cap :: scanTrig alts cls maxLen fuel (lastIsWord cap) restAfter
    | none => scanTrig alts cls maxLen fuel (isWordChar c) rest

/-- Run one trigger regex over the whole text. -/
def runTrig (alts : List (List Tok)) (cls : Char → Bool) (maxLen : Nat)
    (text : List Char) : List (List Char) :=
  scanTrig alts cls maxLen (text.length + 1) false text

end Mvp

namespace Mvp

open Js

/-- Lead token sequences of the four exclusion regexes `\bno\s+…`,
`\bdon'?t\s+include\s+…`, `\bexclude\s+…`, `\bwithout\s+…` (the trailing
`\s+` before the capture is handled by `capTry`). -/
def exclusionTriggers : List (List (List Tok)) :=
  [[[Tok.lit "no"]],
   [[Tok.lit ("don" ++ String.singleton apos ++ "t"), Tok.ws1, Tok.lit "include"],
    [Tok.lit "dont", Tok.ws1, Tok.lit "include"]],
   [[Tok.lit "exclude"]],
   [[Tok.lit "without"]]]

/-- Lead token sequences of the six inclusion regexes (`must include`,
`include`, `add`, `focus on`, `want`, `looking for`). -/
def inclusionTriggers : List (List (List Tok)) :=
  [[[Tok.lit "must", Tok.ws1, Tok.lit "include"]],
   [[Tok.lit "include"]],
   [[Tok.lit "add"]],
   [[Tok.lit "focus", Tok.ws1, Tok.lit "on"]],
   [[Tok.lit "want"]],
   [[Tok.lit "looking", Tok.ws1, Tok.lit "for"]]]

/-- All captures of the exclusion regexes over the lowercased notes text,
pattern by pattern. -/
def exclusionPhrases (text : List Char) : List (List Char) :=
  exclusionTriggers.foldl (fun acc alts => acc ++ runTrig alts exclChar 60 text) []

/-- All captures of the six inclusion regexes (before the list-style split). -/
def inclusionRegexPhrases (text : List Char) : List (List Char) :=
  inclusionTriggers.foldl (fun acc alts => acc ++ runTrig alts inclChar 120 text) []

/-- Model of `text.split(/[,|\n]/g).map(s => s.trim())`. -/
def listStyle (text : List Char) : List (List Char) :=
  (splitGo (fun c => c = ',' || c = '|' || c = '\n') [] text).map trimChars

/-- Match every phrase against a synonym table, adding each key whose synonym
set fires (set semantics: first insertion wins, phrase-major order). -/
def collectTags (table : List (String × List String)) (phrases : List (List Char)) :
    List String :=
  phrases.foldl (fun acc ph =>
    table.foldl (fun acc2 entry =>
      if entry.2.any (fun s => containsSub ph s.data) && !acc2.contains entry.1 then
        acc2 ++ [entry.1]
      else acc2) acc) []

/-- The avoid tag list before the retention cap. -/
def avoidsAll (notes : String) : List String :=
  collectTags CANONICAL_AVOID (exclusionPhrases (notes.data.map Char.toLower))

/-- The include tag list before the retention cap (regex captures, then the
comma/pipe/newline-separated list segments). -/
def includesAll (notes : String) : List String :=
  let text := notes.data.map Char.toLower
  collectTags CANONICAL_INCLUDE (inclusionRegexPhrases text ++ listStyle text)

/-- Result record of `extractCanonicalTags`. -/
structure CanonicalTags where
  includes : List String
  avoids : List String
deriving Repr, DecidableEq

/-- Model of `extractCanonicalTags(notes)`: canonical include/avoid tags, each capped by
`slice(0, 6)`. -/
def extractCanonicalTags (notes : String) : CanonicalTags :=
  ⟨(includesAll notes).take 6, (avoidsAll notes).take 6⟩

end Mvp

namespace Mvp

open Js

/-- Canonical request inputs (`coerceInputs` output shape). -/
structure Inputs where
  recipient : String
  vibe : String
  occasion : String
  notes : String
  social : String
deriving Repr, DecidableEq

/-- Model of `coerceInputs` restricted to canonical keys: each field is
whitespace-normalised (the label-variant fallback only fires for payloads
using line-item labels, which carry no additional information here). -/
def coerceInputs (i : Inputs) : Inputs :=
  ⟨normalizeStr i.recipient, normalizeStr i.vibe, normalizeStr i.occasion,
   normalizeStr i.notes, normalizeStr i.social⟩

/-- Model of `String(tier || "").toLowerCase().includes("signature")`. -/
def isSignatureOf (tier : String) : Bool :=
  strIncludes (lowerStr tier) "signature"

/-- The lowercased, whitespace-normalised notes text used for brand and
keyword scans inside `buildPrompt`. -/
def notesTextOf (inputs : Inputs) : String :=
  toLower inputs.notes

/-- Model of `new Set(canonical.avoids.map(x => String(x).toLowerCase()))`. -/
def avoidSetOf (notes : String) : List String :=
  (extractCanonicalTags notes).avoids.map lowerStr

/-- Model of `canonical.includes.length > 0`. -/
def hasFocusOf (notes : String) : Bool :=
  !(extractCanonicalTags notes).includes.isEmpty

/-- The generic brand-word scan (`logo` / `logos` / `brand` / `branded`). -/
def requestedBrandWordsOf (nt : String) : Bool :=
  strIncludes nt "logo" || strIncludes nt "logos" ||
  strIncludes nt "brand" || strIncludes nt "branded"

/-- Model of `wantsBrandsOrLogos`: under strict mode only a permitted brand request
enables brands; otherwise generic brand words are enough. -/
def wantsBrandsOrLogosOf (policy : Constraints) (nt : String) : Bool :=
  if policy.STRICT_BRAND_MODE then !(detectBrands policy nt).permitted.isEmpty
  else !(detectBrands policy nt).permitted.isEmpty || requestedBrandWordsOf nt

/-- Model of `wantsWatch`: a watch/timepiece keyword, or a requested dial time. -/
def wantsWatchOf (inputs : Inputs) : Bool :=
  strIncludes (notesTextOf inputs) "watch" ||
  strIncludes (notesTextOf inputs) "timepiece" ||
  (extractTimeFromNotes inputs.notes).isSome

/-- Model of `INCLUDE_LABEL[k] || k`. -/
def lookupLabel (k : String) : String :=
  match INCLUDE_LABEL.find? (fun e => e.1 = k) with
  | some e => e.2
  | none => k

/-- The default-allow candle rule of `buildPrompt`. -/
def candleAllowedLine : String :=
  "candle sets are allowed; maximum two candles; substantial vessels; premium materials; not tea lights or votives"

/-- The `MUST_INCLUDE` list assembled by `buildPrompt`, in source push order. -/
def MUST_INCLUDE (policy : Constraints) (inputs : Inputs) (tier : String) : List String :=
  let nt := notesTextOf inputs
  let g := inferRecipientGroup inputs.recipient inputs.notes
  let scan := detectBrands policy nt
  let wants := wantsBrandsOrLogosOf policy nt
  let rt := extractTimeFromNotes inputs.notes
  let canonical := extractCanonicalTags inputs.notes
  ["apply a " ++ groupName g ++ " premium palette: " ++ PALETTES g]
  ++ (if wants then
        ["include visible brand logos and specific branded items ONLY if explicitly requested and permitted",
         "avoid random extra brands not requested",
         "no invented brands"]
      else [])
  ++ ["volume must come from structured items (rigid boxes, hard cases, ceramic/metal objects), not pillow-like textiles",
      "throws or blankets allowed only if folded/draped as a thin premium textile accent, not dominant and not pillow-like"]
  ++ (if isSignatureOf tier then
        ["show a nested 3-tier gift box presentation: top box open, middle box partially visible, bottom box hinted",
         "clearly show multiple boxes and layered depth (not a single box only)",
         "include ONE dominant modern sculptural lifestyle object as the hero (ceramic, stone, resin, metal, or leather)",
         "hero object must feel trend-forward and expensive",
         "all other items must be secondary and smaller"]
      else
        ["show one premium gift box open with contents clearly visible; 3–6 items max; strong negative space"])
  ++ ["gift shop trinkets are allowed if premium-looking; limit to ONE small accent item; avoid cheap plastic",
      "bath bombs or lip balm allowed only as a single small secondary accent when appropriate; must not dominate",
      "soft cosmetic bags allowed only if OPEN with contents visible (no closed or zipped bags)"]
  ++ (if (avoidSetOf inputs.notes).contains "candles" then [] else [candleAllowedLine])
  ++ (if wantsWatchOf inputs then
        ["include a premium wristwatch/timepiece as a visible item",
         "watch should be shown in an open presentation case or tray",
         "avoid smartwatch appearance unless explicitly requested"]
        ++ (match rt with
            | some t =>
              ["watch must show the exact time " ++ t,
               "make the watch face large and clearly readable"]
            | none => [])
      else [])
  ++ (if hasFocusOf inputs.notes then
        ["PRIMARY FOCUS ITEMS (from Notes): " ++
           String.intercalate "; " (canonical.includes.map lookupLabel),
         "center the composition around these items",
         "any non-requested items must be minimal, generic, and secondary",
         "avoid filler items that dilute the requested focus"]
        ++ (if wants then
              ["if a brand is explicitly requested in Notes and permitted, show only that brand (no extra brands)"]
            else [])
      else [])
  ++ (if scan.permitted.isEmpty then []
      else ["permitted brand requests: " ++ String.intercalate ", " scan.permitted ++
              " (include ONLY these, if shown)"])
  ++ (if scan.blocked.isEmpty then []
      else ["blocked brand requests detected (DO NOT include): " ++
              String.intercalate ", " scan.blocked])
  ++ ["no readable text anywhere unless explicitly requested"]

/-- The `NEGATIVE` list assembled by `buildPrompt`, in source push order. -/
def NEGATIVE (policy : Constraints) (inputs : Inputs) (tier : String) : List String :=
  let nt := notesTextOf inputs
  let scan := detectBrands policy nt
  let wants := wantsBrandsOrLogosOf policy nt
  let avoidSet := avoidSetOf inputs.notes
  (if wants then ["no watermarks", "no UI elements", "no extra brand logos"]
   else ["no logos", "no brand names", "no readable labels", "no readable text", "no typography"])
  ++ (if scan.blocked.isEmpty then []
      else ["no " ++ String.intercalate " brand, no " scan.blocked ++ " brand",
            "no luxury designer branding unless explicitly permitted"])
  ++ ["no pillows", "no cushions", "no pillow-shaped items", "no plush pillow forms",
      "no bulky square fabric bundles", "no sheet masks", "no mini or travel-size skincare",
      "no hand cream tubes", "no tea lights", "no votive candles", "no loose cards",
      "no posters", "no unbound prints", "no excessive small items", "no decorative padding"]
  ++ (if isSignatureOf tier then
        ["no single-box-only composition", "no consumable item as hero",
         "no candle, skincare, fragrance, journal, or self-care item as the primary object",
         "no spa-kit look", "no cluttered assortment of small consumables"]
      else ["no cluttered overflowing box"])
  ++ ["no closed cosmetic bags", "no zipped cosmetic pouches"]
  ++ (if avoidSet.contains "candles" then ["no candles", "no candle-like objects", "no wax items"] else [])
  ++ (if avoidSet.contains "skincare" then ["no skincare", "no lotions", "no creams", "no serums", "no masks"] else [])
  ++ (if avoidSet.contains "fragrance" then ["no fragrance", "no perfume", "no cologne"] else [])
  ++ (if avoidSet.contains "socks" then ["no socks"] else [])
  ++ (if avoidSet.contains "hats" then ["no hats", "no caps", "no beanies"] else [])
  ++ (if avoidSet.contains "plush" then ["no plush", "no stuffed animals"] else [])
  ++ (if avoidSet.contains "pillow" then ["no pillows", "no cushions"] else [])
  ++ (if avoidSet.contains "blanket" then ["no blankets", "no throws"] else [])
  ++ (if avoidSet.contains "paper" then ["no greeting cards", "no paper inserts", "no posters", "no prints"] else [])
  ++ (if avoidSet.contains "alcohol" then ["no alcohol", "no wine", "no spirits"] else [])
  ++ (if avoidSet.contains "food" then ["no food", "no snacks", "no candy", "no chocolate"] else [])
  ++ (if avoidSet.contains "clutter" then ["no cheap plastic", "no novelty items", "no gag gifts"] else [])
  ++ (if wantsWatchOf inputs then ["no smartwatches unless requested"] else [])
  ++ (if hasFocusOf inputs.notes then
        ["no random extra categories not requested", "no unrelated novelty items"]
        ++ (if wants then ["no additional brands beyond the requested/permitted set"] else [])
      else [])

/-- The composed constraint set of a request (spec `ComposedConstraints`). -/
structure ComposedConstraints where
  mustInclude : List String
  negative : List String
deriving Repr, DecidableEq

/-- Model of `buildPrompt` with its two constraint lists (the
final rendering step is pure string interpolation of these lists). -/
def buildPrompt (policy : Constraints) (inputs : Inputs) (tier : String) : ComposedConstraints :=
  ⟨MUST_INCLUDE policy inputs tier, NEGATIVE policy inputs tier⟩

end Mvp

namespace Mvp

open Js

/-- The `MAX_GENERATIONS` policy constant. -/
def MAX_GENERATIONS : Nat := 2

/-- A JS value as far as the Replicate-output unwrapping is concerned:
a string, an array, an object with optional `output` / `images` array fields
and an optional string `url` field, or `null`/`undefined`. -/
inductive JsVal
  | vstr (s : String)
  | varr (xs : List JsVal)
  | vobj (output : Option (List JsVal)) (images : Option (List JsVal)) (url : Option String)
  | vnull
deriving Repr

/-- JS truthiness of a value (`""` and `null` are falsy). -/
def truthy : JsVal → Bool
  | .vstr s => !(s = "")
  | .varr _ => true
  | .vobj _ _ _ => true
  | .vnull => false

/-- Truthiness of a possibly-null slot. -/
def truthyOpt : Option JsVal → Bool
  | none => false
  | some v => truthy v

/-- The `imageUrl` unwrapping of the handler: a string output is taken as is;
a non-empty array contributes its first element; otherwise the object fields
`output`, `images` (first elements of non-empty arrays) and `url` are tried in
order, each only while the accumulator is still falsy.  The result is usable
only if it is a non-empty string. -/
def extractImageUrl (output : JsVal) : Option String :=
  let picked : Option JsVal :=
    match output with
    | .vstr s => some (.vstr s)
    | .varr (x :: _) => some x
    | .varr [] => none
    | .vnull => none
    | .vobj o i u =>
      let u1 : Option JsVal := match o with
        | some (x :: _) => some x
        | _ => none
      let u2 : Option JsVal := if truthyOpt u1 then u1 else
        match i with
        | some (x :: _) => some x
        | _ => none
      if truthyOpt u2 then u2 else
        match u with
        | some s => some (.vstr s)
        | none => u2
  match picked with
  | some (.vstr s) => if s = "" then none else some s
  | _ => none

/-- Responses of the handler, by source return site. -/
inductive HandlerResp
  | missingToken
  | missingInputs
  | quotaExceeded
  | replicateFailed (details : String)
  | noImage
  | success (tier : String) (used : Nat) (imageUrl : String)
deriving Repr, DecidableEq

/-- Outcome of one handler invocation: the response, the `generationCount`
map afterwards, and whether `replicate.run` was invoked. -/
structure HandlerResult where
  resp : HandlerResp
  quota : String → Nat
  backendCalled : Bool

/-- One POST request: token presence, the parsed body (inputs, sessionId,
optional tier), and the backend outcome `replicate.run` would produce for it
(transport failure or a value). -/
structure Request where
  hasToken : Bool
  body : Option (Inputs × String × Option String)
  backend : Except String JsVal

/-- The request handler (`module.exports`) of the MVP revision: token check,
body check, quota check against `generationCount`, backend call, output
unwrapping, and the increment `generationCount.set(sessionId, used + 1)`
exactly on the success return. -/
def handler (quota : String → Nat) (req : Request) : HandlerResult :=
  if !req.hasToken then ⟨.missingToken, quota, false⟩
  else
    match req.body with
    | none => ⟨.missingInputs, quota, false⟩
    | some (rawInputs, sessionId, tierOpt) =>
      if sessionId = "" then ⟨.missingInputs, quota, false⟩
      else
        let tier := tierOpt.getD "Curated"
        let used := quota sessionId
        if MAX_GENERATIONS ≤ used then ⟨.quotaExceeded, quota, false⟩
        else
          let inputs := coerceInputs rawInputs
          let _prompt := buildPrompt defaultConstraints inputs tier
          match req.backend with
          | .error e => ⟨.replicateFailed e, quota, true⟩
          | .ok output =>
            match extractImageUrl output with
            | none => ⟨.noImage, quota, true⟩
            | some url =>
              ⟨.success tier (used + 1) url,
               fun s => if s = sessionId then used + 1 else quota s, true⟩

/-- Run a sequence of requests through the handler, threading the
`generationCount` map; each request is paired with its outcome. -/
def runTrace (quota : String → Nat) : List Request → List (Request × HandlerResult)
  | [] => []
  | r :: rs =>
    let h := handler quota r
    (r, h) :: runTrace h.quota rs

end Mvp

namespace Spec

open Js

/-- Modelled from the spec: the five fixed age bands claimed in §4.1
("≤6, 7–10, 11–14, 15–18, 18+"), as a band index.  For comparison with the
code's age handling. -/
def specAgeBand (a : Nat) : Nat :=
  if a ≤ 6 then 1 else if a ≤ 10 then 2 else if a ≤ 14 then 3 else if a ≤ 18 then 4 else 5

/-- Modelled from the spec: "a brand is permitted if strictMode is off, or if
strictMode is on and the brand is in allowList and not in denyList".  For
comparison with `detectBrands`. -/
def specPermitted (policy : Mvp.Constraints) (b : String) : Bool :=
  !policy.STRICT_BRAND_MODE ||
    (policy.ALLOWED_BRANDS.contains b && !policy.DISALLOWED_BRANDS.contains b)

/-- Modelled from the spec: palette words present in the text (whole-word,
case-insensitive), de-duplicated, in order of first appearance in the text.
For comparison with `extractColorsFree`. -/
def firstAppearanceGo (found : List String) (prevW : Bool) : List Char → List String
  | [] => found
  | t@(c :: rest) =>
    let found2 := V1.COLOR_WORDS.foldl
      (fun a w =>
        if !prevW && V1.prefixBoundary w.data t && !a.contains w then a ++ [w] else a)
      found
    firstAppearanceGo found2 (isWordChar c) rest

/-- Modelled from the spec: color extraction in first-appearance order. -/
def specColorsFirstAppearance (notes : String) : List String :=
  firstAppearanceGo [] false (lowerStr notes).data

end Spec

set_option maxRecDepth 100000

/-- Concrete request whose notes both request and exclude hats. -/
def collisionInputs : Mvp.Inputs := ⟨"Friend", "Minimalist", "Birthday", "reebok hat, no hats", ""⟩

/-- Notes whose exclusion phrases fire on seven distinct avoid categories,
with candles last. -/
def sevenAvoidNotes : String :=
  "no skincare, no fragrance, no socks, no hats, no plush, no pillow, no candles"

/-- Concrete request carrying `sevenAvoidNotes`. -/
def evictInputs : Mvp.Inputs := ⟨"Friend", "Minimalist", "Birthday", sevenAvoidNotes, ""⟩

/-- Concrete request whose notes are exactly the exclusion "no hats". -/
def noHatsInputs : Mvp.Inputs := ⟨"Friend", "Minimalist", "Birthday", "no hats", ""⟩

/-- Concrete request with a dot-separated time literal and no watch keyword. -/
def timeInputs : Mvp.Inputs := ⟨"Friend", "Minimalist", "Birthday", "dinner at 19.30", ""⟩

/-- Concrete request excluding candles and requesting a mug (spec §8 scenario). -/
def mugInputs : Mvp.Inputs := ⟨"Friend", "Minimalist", "Birthday", "no candles, include a mug", ""⟩

/-- A quota table in which every session has already used two generations. -/
def exhaustedQuota : String → Nat := fun _ => 2

/-- A minimal well-formed request whose backend call would succeed. -/
def stubRequest : Mvp.Request :=
  ⟨true, some (⟨"Friend", "Minimalist", "Birthday", "", ""⟩, "s", none),
   Except.ok (Mvp.JsVal.vstr "img")⟩


namespace Js

/-- String concatenation acts on the underlying character lists. -/
theorem data_append (s t : String) : (s ++ t).data = s.data ++ t.data := by
  cases s; cases t; rfl

/-- The head of an appended string is the head of its non-empty left part. -/
theorem head_append {p : String} (q : String) {c : Char}
    (hp : p.data.head? = some c) : (p ++ q).data.head? = some c := by
  rw [data_append]
  cases hpd : p.data with
  | nil => rw [hpd] at hp; cases hp
  | cons x xs =>
    rw [hpd] at hp
    rw [List.cons_append]
    simpa using hp

/-- Two strings whose first characters differ are different; in particular a
string starting with `c` differs from any `p ++ q` with `p` starting with a
different character. -/
theorem ne_append_of_head {p q t : String} {c d : Char}
    (hp : p.data.head? = some c) (ht : t.data.head? = some d) (hcd : c ≠ d) :
    t ≠ p ++ q := by
  intro he
  have h1 : (p ++ q).data.head? = some c := head_append q hp
  rw [← he, ht] at h1
  exact hcd (Option.some.inj h1).symm

/-- An ordered-set insertion pass over a duplicate-free list disjoint from the
seen set is the identity. -/
theorem contains_eq_false_iff (seen : List String) (y : String) :
    seen.contains y = false ↔ y ∉ seen := by
  constructor
  · intro h hmem
    have h2 : seen.contains y = true := List.elem_eq_true_of_mem hmem
    rw [h2] at h
    cases h
  · intro h
    cases hc : seen.contains y with
    | false => rfl
    | true => exact absurd (List.mem_of_elem_eq_true hc) h

theorem dedupGo_self : ∀ (l seen : List String),
    l.Nodup → (∀ x ∈ l, x ∉ seen) → dedupGo seen l = l := by
  intro l
  induction l with
  | nil => intro seen _ _; rfl
  | cons x xs ih =>
    intro seen hnd hdisj
    have hx : seen.contains x = false :=
      (contains_eq_false_iff seen x).mpr (hdisj x (List.mem_cons_self x xs))
    have hnd' := List.nodup_cons.mp hnd
    rw [dedupGo, hx]
    simp only [Bool.false_eq_true, if_false]
    congr 1
    apply ih (x :: seen) hnd'.2
    intro y hy
    intro hmem
    rcases List.mem_cons.mp hmem with he | hseen
    · exact hnd'.1 (he ▸ hy)
    · exact hdisj y (List.mem_cons_of_mem x hy) hseen

end Js

/-- C1 (counterexample).  The claimed invariant — no canonical tag is both
asserted by `mustInclude` and forbidden by `negative` — fails at the request
with notes "reebok hat, no hats": the composed `mustInclude` carries the
focus-mode positive for the hat tag while `negative` carries the hats
exclusion expansion. -/
theorem mvp_include_avoid_collision_cex :
    "PRIMARY FOCUS ITEMS (from Notes): premium hat/cap/beanie (structured, elevated)" ∈
      (Mvp.buildPrompt Mvp.defaultConstraints collisionInputs "Starter").mustInclude ∧
    "no hats" ∈ (Mvp.buildPrompt Mvp.defaultConstraints collisionInputs "Starter").negative := by
  decide

/-- C1 (amended).  When the notes trigger the include scan and the avoid
scan on the same canonical tag — as in "reebok hat, no hats", where the
list-style include scan yields the `hat` tag and the exclusion scan yields the
`hats` tag — the composed constraints deterministically carry both the
focus-mode positive for the tag and the tag's full exclusion expansion;
neither scan suppresses the other. -/
theorem mvp_include_avoid_collision :
    (Mvp.extractCanonicalTags "reebok hat, no hats").includes = ["hat"] ∧
    (Mvp.extractCanonicalTags "reebok hat, no hats").avoids = ["hats"] ∧
    "PRIMARY FOCUS ITEMS (from Notes): premium hat/cap/beanie (structured, elevated)" ∈
      (Mvp.buildPrompt Mvp.defaultConstraints collisionInputs "Starter").mustInclude ∧
    "no hats" ∈ (Mvp.buildPrompt Mvp.defaultConstraints collisionInputs "Starter").negative ∧
    "no caps" ∈ (Mvp.buildPrompt Mvp.defaultConstraints collisionInputs "Starter").negative ∧
    "no beanies" ∈ (Mvp.buildPrompt Mvp.defaultConstraints collisionInputs "Starter").negative := by
  decide

/-- C3 (counterexample).  With strict mode off and "gucci" on the deny
list, the spec's partition rule declares a found "gucci" permitted
(strictMode off ⇒ permitted), but `detectBrands` blocks it: the deny list is
honoured regardless of `strictMode`. -/
theorem mvp_brand_partition_cex :
    Spec.specPermitted ⟨[], ["gucci"], false⟩ "gucci" = true ∧
    (Mvp.detectBrands ⟨[], ["gucci"], false⟩ (Mvp.toLower "a Gucci bag")).requested = ["gucci"] ∧
    (Mvp.detectBrands ⟨[], ["gucci"], false⟩ (Mvp.toLower "a Gucci bag")).permitted = [] ∧
    (Mvp.detectBrands ⟨[], ["gucci"], false⟩ (Mvp.toLower "a Gucci bag")).blocked = ["gucci"] := by
  decide

/-- C3 (amended).  A found brand is blocked iff it is on the deny list, or
the allow list is non-empty and the brand is not on it; it is permitted
otherwise.  `strictMode` plays no role in the permitted/blocked partition (it
only gates whether generic brand words enable logos downstream). -/
theorem mvp_brand_partition (policy : Mvp.Constraints) (nt b : String) :
    (b ∈ (Mvp.detectBrands policy nt).blocked ↔
      b ∈ (Mvp.detectBrands policy nt).requested ∧
        (b ∈ policy.DISALLOWED_BRANDS ∨
          (policy.ALLOWED_BRANDS ≠ [] ∧ b ∉ policy.ALLOWED_BRANDS))) ∧
    (b ∈ (Mvp.detectBrands policy nt).permitted ↔
      b ∈ (Mvp.detectBrands policy nt).requested ∧
        ¬(b ∈ policy.DISALLOWED_BRANDS ∨
          (policy.ALLOWED_BRANDS ≠ [] ∧ b ∉ policy.ALLOWED_BRANDS))) := by
  simp only [Mvp.detectBrands]
  constructor
  · simp [List.mem_filter]
  · rw [List.mem_filter]
    simp only [Bool.not_eq_true']
    rw [Js.contains_eq_false_iff]
    simp [List.mem_filter]
    tauto

/-- C3 (witness).  The amended partition rule applied at the
counterexample policy: "gucci" is blocked there. -/
theorem mvp_brand_partition_witness :
    "gucci" ∈ (Mvp.detectBrands ⟨[], ["gucci"], false⟩ (Mvp.toLower "a Gucci bag")).blocked :=
  (mvp_brand_partition ⟨[], ["gucci"], false⟩ (Mvp.toLower "a Gucci bag") "gucci").1.mpr
    ⟨by decide, Or.inl (by decide)⟩

/-- C5 (counterexample).  The spec's five-band mapping (≤6, 7–10, 11–14,
15–18, 18+) puts 12 and 14 in the same band, yet the code's age handling
treats them differently ("kid" vs "teen" rules): the code implements four
bands with thresholds 3/12/17, not the five claimed bands. -/
theorem v1_age_five_band_cex :
    Spec.specAgeBand 12 = Spec.specAgeBand 14 ∧
    V1.extractAge "12 years old" = some 12 ∧
    V1.extractAge "14 years old" = some 14 ∧
    (V1.buildNotesRules "12 years old").hard ≠ (V1.buildNotesRules "14 years old").hard := by
  decide

/-- C5 (amended).  Age extraction returns `null` when no integer is
adjacent to an age-marker phrase ("bring 2 candles" yields no age), and a
marked age is mapped to one of four fixed bands (≤3 infant, 4–12 kid,
13–17 teen, 18+ adult) whose rule is the first hard constraint;
"10 years old" yields the kid band. -/
theorem v1_age_four_bands :
    (∀ notes a, V1.extractAge notes = some a →
      (V1.buildNotesRules notes).hard.head? = some (V1.ageRule a)) ∧
    V1.extractAge "bring 2 candles" = none ∧
    V1.extractAge "10 years old" = some 10 ∧
    V1.ageRule 10 = "kid-appropriate items only; playful, fun, absolutely no adult themes" := by
  refine ⟨?_, by decide, by decide, by decide⟩
  intro notes a h
  simp [V1.buildNotesRules, h]

/-- C5 (witness).  The four-band mapping applied at "10 years old". -/
theorem v1_age_four_bands_witness :
    V1.extractAge "10 years old" = some 10 ∧
    (V1.buildNotesRules "10 years old").hard.head? = some (V1.ageRule 10) :=
  ⟨by decide, v1_age_four_bands.1 "10 years old" 10 (by decide)⟩

/-- C6 (counterexample).  For "navy and blue" the first-appearance order
required by the claim is `["navy", "blue"]`, but `extractColorsFree` returns
the hits in palette-vocabulary order: `["blue", "navy"]`. -/
theorem v1_colors_first_appearance_cex :
    Spec.specColorsFirstAppearance "navy and blue" = ["navy", "blue"] ∧
    V1.extractColorsFree "navy and blue" = ["blue", "navy"] ∧
    V1.extractColorsFree "navy and blue" ≠ Spec.specColorsFirstAppearance "navy and blue" := by
  decide

/-- C6 (amended).  The extracted colors are exactly the palette-vocabulary
words occurring (case-insensitive, whole-word) in the text, de-duplicated,
listed in the fixed vocabulary order (not first-appearance order); the
claim's own example "blue and navy and blue again" still yields
`["blue", "navy"]` because there the two orders coincide. -/
theorem v1_colors_vocab_order :
    (∀ notes, V1.extractColorsFree notes =
      V1.COLOR_WORDS.filter (fun c => V1.testWord c (Js.lowerStr notes))) ∧
    V1.extractColorsFree "blue and navy and blue again" = ["blue", "navy"] := by
  refine ⟨?_, by decide⟩
  intro notes
  unfold V1.extractColorsFree
  apply Js.dedupGo_self
  · exact List.Nodup.filter _ (by decide)
  · intro x _ hx
    cases hx

/-- C7 (counterexample).  A notes text firing seven distinct avoid
categories retains only the first six (`slice(0, 6)`), not "up to 8": the
candles tag, seventh in first-match order, is dropped. -/
theorem mvp_avoid_cap_eight_cex :
    Mvp.avoidsAll sevenAvoidNotes =
      ["skincare", "fragrance", "socks", "hats", "plush", "pillow", "candles"] ∧
    (Mvp.extractCanonicalTags sevenAvoidNotes).avoids =
      ["skincare", "fragrance", "socks", "hats", "plush", "pillow"] ∧
    (Mvp.extractCanonicalTags sevenAvoidNotes).avoids ≠
      (Mvp.avoidsAll sevenAvoidNotes).take 8 := by
  decide

/-- C7 (amended).  The extractor retains at most 6 canonical include tags
and at most 6 (not 8) canonical avoid tags, in first-match order. -/
theorem mvp_tag_caps_six (notes : String) :
    (Mvp.extractCanonicalTags notes).includes.length ≤ 6 ∧
    (Mvp.extractCanonicalTags notes).avoids.length ≤ 6 :=
  ⟨List.length_take_le 6 (Mvp.includesAll notes),
   List.length_take_le 6 (Mvp.avoidsAll notes)⟩

/-- C9 (confirmed).  For notes consisting solely of the exclusion
"no hats", the six explicit inclusion regexes capture nothing, yet the
comma/line list-style scan matches the segment "no hats" against the hat
synonym set, so the hat tag lands in `includes`, focus mode activates, and the
composed `mustInclude` centres on the very item the user excluded. -/
theorem mvp_list_scan_focus_on_excluded :
    Mvp.inclusionRegexPhrases ("no hats".data.map Char.toLower) = [] ∧
    (Mvp.extractCanonicalTags "no hats").includes = ["hat"] ∧
    (Mvp.extractCanonicalTags "no hats").avoids = ["hats"] ∧
    Mvp.hasFocusOf "no hats" = true ∧
    "PRIMARY FOCUS ITEMS (from Notes): premium hat/cap/beanie (structured, elevated)" ∈
      (Mvp.buildPrompt Mvp.defaultConstraints noHatsInputs "Starter").mustInclude := by
  decide

namespace Mvp

/-- The handler never decreases any session's recorded generation count. -/
theorem handler_quota_mono (q : String → Nat) (r : Request) (s : String) :
    q s ≤ (handler q r).quota s := by
  simp only [handler]
  repeat' split
  any_goals exact Nat.le_refl _
  simp only []
  split
  · rename_i hs
    subst hs
    exact Nat.le_succ _
  · exact Nat.le_refl _

/-- A well-formed request against an exhausted session returns the
quota-exceeded response, does not touch the quota map, and does not call the
backend. -/
theorem handler_quota_exceeded (q : String → Nat) (r : Request)
    (inputs : Inputs) (sid : String) (tierOpt : Option String)
    (htok : r.hasToken = true) (hbody : r.body = some (inputs, sid, tierOpt))
    (hsid : sid ≠ "") (hq : MAX_GENERATIONS ≤ q sid) :
    handler q r = ⟨.quotaExceeded, q, false⟩ := by
  rcases r with ⟨tok, body, bk⟩
  simp only at htok hbody
  subst htok
  subst hbody
  unfold handler
  simp [hsid, hq]

end Mvp

/-- C2 (confirmed).  Once a session's recorded count has reached
`MAX_GENERATIONS`, every further well-formed request with that sessionId —
anywhere in any subsequent request trace, with any interleaved traffic —
terminates with the quota-exceeded response and never invokes the backend. -/
theorem mvp_quota_exceeded_forever (q : String → Nat) (sid : String)
    (hsid : sid ≠ "") (hq : Mvp.MAX_GENERATIONS ≤ q sid) (reqs : List Mvp.Request) :
    ∀ p ∈ Mvp.runTrace q reqs, ∀ inputs tierOpt,
      p.1.hasToken = true → p.1.body = some (inputs, sid, tierOpt) →
      p.2.resp = Mvp.HandlerResp.quotaExceeded ∧ p.2.backendCalled = false := by
  induction reqs generalizing q with
  | nil => intro p hp; cases hp
  | cons r rs ih =>
    intro p hp inputs tierOpt htok hbody
    rcases List.mem_cons.mp hp with he | htail
    · subst he
      simp only
      rw [Mvp.handler_quota_exceeded q r inputs sid tierOpt htok hbody hsid hq]
      exact ⟨rfl, rfl⟩
    · exact ih (Mvp.handler q r).quota
        (Nat.le_trans hq (Mvp.handler_quota_mono q r sid)) p htail inputs tierOpt htok hbody

/-- C2 (witness).  A session with two recorded generations: one more
request is refused without a backend call. -/
theorem mvp_quota_exceeded_forever_witness :
    ("s" : String) ≠ "" ∧ Mvp.MAX_GENERATIONS ≤ exhaustedQuota "s" ∧
    (Mvp.handler exhaustedQuota stubRequest).resp = Mvp.HandlerResp.quotaExceeded ∧
    (Mvp.handler exhaustedQuota stubRequest).backendCalled = false := by
  refine ⟨by decide, by decide, ?_⟩
  have hm : (stubRequest, Mvp.handler exhaustedQuota stubRequest) ∈
      Mvp.runTrace exhaustedQuota [stubRequest] := by
    unfold Mvp.runTrace
    exact List.mem_cons_self _ _
  exact mvp_quota_exceeded_forever exhaustedQuota "s" (by decide) (by decide) [stubRequest]
    (stubRequest, Mvp.handler exhaustedQuota stubRequest) hm
    ⟨"Friend", "Minimalist", "Birthday", "", ""⟩ none rfl rfl

/-- C8 (confirmed).  For a well-formed request, a success response carries
`usedCount + 1` and is the only outcome that changes the quota map — and then
only for its own sessionId, by exactly one; on every other outcome (quota
refusal, backend transport failure, unusable backend output) the map is
unchanged. -/
theorem mvp_used_count_increment_iff (q : String → Nat) (inputs : Mvp.Inputs)
    (sid : String) (tierOpt : Option String) (bk : Except String Mvp.JsVal) (tok : Bool) :
    (∀ t u url,
        (Mvp.handler q ⟨tok, some (inputs, sid, tierOpt), bk⟩).resp =
          Mvp.HandlerResp.success t u url →
        (Mvp.handler q ⟨tok, some (inputs, sid, tierOpt), bk⟩).quota sid = q sid + 1 ∧
        u = q sid + 1 ∧
        ∀ s, s ≠ sid →
          (Mvp.handler q ⟨tok, some (inputs, sid, tierOpt), bk⟩).quota s = q s) ∧
    ((∀ t u url,
        (Mvp.handler q ⟨tok, some (inputs, sid, tierOpt), bk⟩).resp ≠
          Mvp.HandlerResp.success t u url) →
      (Mvp.handler q ⟨tok, some (inputs, sid, tierOpt), bk⟩).quota = q) := by
  simp only [Mvp.handler]
  repeat' split
  any_goals
    exact ⟨fun t u url hr => Mvp.HandlerResp.noConfusion hr, fun _ => rfl⟩
  constructor
  · intro t u url hr
    simp only at hr
    injection hr with h1 h2 h3
    refine ⟨?_, h2.symm, ?_⟩
    · simp
    · intro s hs
      simp [if_neg hs]
  · intro hno
    exact absurd rfl (hno _ _ _)

/-- C8 (witness).  A successful generation for a fresh session: the
response is a success carrying count 1 and the map records 1 for that
session. -/
theorem mvp_used_count_increment_iff_witness :
    (Mvp.handler (fun _ => 0) stubRequest).resp = Mvp.HandlerResp.success "Curated" 1 "img" ∧
    (Mvp.handler (fun _ => 0) stubRequest).quota "s" = (fun (_ : String) => 0) "s" + 1 := by
  have H := mvp_used_count_increment_iff (fun _ => 0)
    ⟨"Friend", "Minimalist", "Birthday", "", ""⟩ "s" none
    (Except.ok (Mvp.JsVal.vstr "img")) true
  exact ⟨by decide, (H.1 "Curated" 1 "img" (by decide)).1⟩

/-- C10 (confirmed).  Whenever the notes contain an `HH:MM`-like time
literal (0–23 hour, 0–59 minute, `:` or `.` separator), the composer adds the
wristwatch must-include constraints, including the exact-time instruction with
the separator normalised to `:` — regardless of whether any watch or
timepiece keyword occurs in the notes. -/
theorem mvp_time_literal_forces_watch (policy : Mvp.Constraints) (inputs : Mvp.Inputs)
    (tier : String) (t : String)
    (h : Mvp.extractTimeFromNotes inputs.notes = some t) :
    "include a premium wristwatch/timepiece as a visible item" ∈
      (Mvp.buildPrompt policy inputs tier).mustInclude ∧
    ("watch must show the exact time " ++ t) ∈
      (Mvp.buildPrompt policy inputs tier).mustInclude := by
  have hw : Mvp.wantsWatchOf inputs = true := by
    unfold Mvp.wantsWatchOf
    simp [h]
  constructor <;>
  · simp only [Mvp.buildPrompt, Mvp.MUST_INCLUDE, hw, h, if_true]
    simp [List.mem_append]

/-- C10 (witness).  Notes "dinner at 19.30" have no watch keyword, yet the
composed constraints demand a watch showing 19:30. -/
theorem mvp_time_literal_forces_watch_witness :
    Mvp.extractTimeFromNotes "dinner at 19.30" = some "19:30" ∧
    Js.strIncludes (Mvp.notesTextOf timeInputs) "watch" = false ∧
    Js.strIncludes (Mvp.notesTextOf timeInputs) "timepiece" = false ∧
    "watch must show the exact time 19:30" ∈
      (Mvp.buildPrompt Mvp.defaultConstraints timeInputs "Starter").mustInclude := by
  refine ⟨by decide, by decide, by decide, ?_⟩
  have H := mvp_time_literal_forces_watch Mvp.defaultConstraints timeInputs "Starter" "19:30"
    (by decide)
  exact H.2

theorem notMemAppend {α : Type} {x : α} {l1 l2 : List α} (h1 : x ∉ l1) (h2 : x ∉ l2) :
    x ∉ l1 ++ l2 := fun h => (List.mem_append.mp h).elim h1 h2

theorem notMemIte {c : Prop} [Decidable c] {x : String} {l1 l2 : List String}
    (h1 : x ∉ l1) (h2 : x ∉ l2) : x ∉ (if c then l1 else l2) := by
  split <;> assumption

theorem candle_notin_palette (g : Mvp.RecipientGroup) :
    Mvp.candleAllowedLine ∉
      ["apply a " ++ Mvp.groupName g ++ " premium palette: " ++ Mvp.PALETTES g] := by
  cases g <;> decide

theorem candle_notin_time_push (rt : Option String) :
    Mvp.candleAllowedLine ∉
      (match rt with
       | some s =>
         ["watch must show the exact time " ++ s,
          "make the watch face large and clearly readable"]
       | none => ([] : List String)) := by
  cases rt with
  | none => simp
  | some s =>
    intro hm
    rcases List.mem_cons.mp hm with he | hm2
    · exact absurd he
        (Js.ne_append_of_head (c := 'w') (d := 'c') (by decide) (by decide) (by decide))
    · exact absurd hm2 (by decide)

/-- C4 (counterexample).  The claim fails because the avoid-tag cap can
evict the candles tag: at `sevenAvoidNotes` an exclusion phrase mapping to
candles fires (candles is in the pre-cap avoid list), yet the retained tags
drop it, so the composed constraints carry the default "candle sets are
allowed" positive and no candles exclusion expansion. -/
theorem mvp_candles_avoid_cap_cex :
    "candles" ∈ Mvp.avoidsAll sevenAvoidNotes ∧
    "candles" ∉ (Mvp.extractCanonicalTags sevenAvoidNotes).avoids ∧
    Mvp.candleAllowedLine ∈
      (Mvp.buildPrompt Mvp.defaultConstraints evictInputs "Starter").mustInclude ∧
    "no candles" ∉ (Mvp.buildPrompt Mvp.defaultConstraints evictInputs "Starter").negative := by
  decide

/-- C4 (amended).  For every request whose retained avoid tags (after the
6-tag cap) include candles, the composed negative list contains the full
candles expansion ("no candles", "no candle-like objects", "no wax items")
and the default "candle sets are allowed" positive is absent from
`mustInclude`; an exclusion phrase for candles only fails to take effect when
more than six distinct avoid categories fire before it, in which case the
default positive reappears. -/
theorem mvp_candles_avoid_suppresses_default (policy : Mvp.Constraints)
    (inputs : Mvp.Inputs) (tier : String)
    (h : "candles" ∈ (Mvp.extractCanonicalTags inputs.notes).avoids) :
    "no candles" ∈ (Mvp.buildPrompt policy inputs tier).negative ∧
    "no candle-like objects" ∈ (Mvp.buildPrompt policy inputs tier).negative ∧
    "no wax items" ∈ (Mvp.buildPrompt policy inputs tier).negative ∧
    Mvp.candleAllowedLine ∉ (Mvp.buildPrompt policy inputs tier).mustInclude := by
  have hset : (Mvp.avoidSetOf inputs.notes).contains "candles" = true := by
    apply List.elem_eq_true_of_mem
    unfold Mvp.avoidSetOf
    exact List.mem_map.mpr ⟨"candles", h, by decide⟩
  refine ⟨?_, ?_, ?_, ?_⟩
  · simp only [Mvp.buildPrompt, Mvp.NEGATIVE, hset, if_true]
    simp [List.mem_append]
  · simp only [Mvp.buildPrompt, Mvp.NEGATIVE, hset, if_true]
    simp [List.mem_append]
  · simp only [Mvp.buildPrompt, Mvp.NEGATIVE, hset, if_true]
    simp [List.mem_append]
  · simp only [Mvp.buildPrompt, Mvp.MUST_INCLUDE, hset, if_true]
    refine notMemAppend (notMemAppend (notMemAppend (notMemAppend (notMemAppend
      (notMemAppend (notMemAppend (notMemAppend (notMemAppend (notMemAppend
        ?hA ?hB) ?hC) ?hD) ?hE) ?hF) ?hG) ?hH) ?hI) ?hJ) ?hK
    case hA => exact candle_notin_palette _
    case hB => exact notMemIte (by decide) (by decide)
    case hC => decide
    case hD => exact notMemIte (by decide) (by decide)
    case hE => decide
    case hF => decide
    case hG =>
      refine notMemIte (notMemAppend (by decide) (candle_notin_time_push _)) (by decide)
    case hH =>
      refine notMemIte (notMemAppend ?_ (notMemIte (by decide) (by decide))) (by decide)
      intro hm
      rcases List.mem_cons.mp hm with he | hm2
      · exact absurd he
          (Js.ne_append_of_head (c := 'P') (d := 'c') (by decide) (by decide) (by decide))
      · exact absurd hm2 (by decide)
    case hI =>
      refine notMemIte (by decide) ?_
      intro hm
      rcases List.mem_cons.mp hm with he | hm2
      · exact absurd he
          (Js.ne_append_of_head (c := 'p') (d := 'c')
            (Js.head_append (p := "permitted brand requests: ") _ (by decide))
            (by decide) (by decide))
      · exact absurd hm2 (by decide)
    case hJ =>
      refine notMemIte (by decide) ?_
      intro hm
      rcases List.mem_cons.mp hm with he | hm2
      · exact absurd he
          (Js.ne_append_of_head (c := 'b') (d := 'c') (by decide) (by decide) (by decide))
      · exact absurd hm2 (by decide)
    case hK => decide

/-- C4 (witness).  The amended rule at the spec's own §8 scenario
notes "no candles, include a mug": candles is retained, the expansion appears
and the default positive is gone. -/
theorem mvp_candles_avoid_suppresses_default_witness :
    "candles" ∈ (Mvp.extractCanonicalTags "no candles, include a mug").avoids ∧
    "no candles" ∈ (Mvp.buildPrompt Mvp.defaultConstraints mugInputs "Starter").negative ∧
    Mvp.candleAllowedLine ∉
      (Mvp.buildPrompt Mvp.defaultConstraints mugInputs "Starter").mustInclude := by
  have H := mvp_candles_avoid_suppresses_default Mvp.defaultConstraints mugInputs "Starter"
    (by decide)
  exact ⟨by decide, H.1, H.2.2.2⟩
